import Mathlib

/-!
Shallow embedding of the realtime connection/presence core of the `lllchat`
repository, together with theorems checking the specification's claims.

The embedding covers:
* `ConnectionManager` in `app/core/websocket_manager.py` (`connect`,
  `disconnect`, `send_to_user`, `broadcast_to_all`), modelled over an
  association list mirroring the Python `dict`, with transport send success
  given by an oracle `ok : ConnId → Bool` (a send raising an exception in the
  source corresponds to `ok c = false`).
* `RateLimiter.check_rate_limit` in `app/core/rate_limiter.py`, with the
  Redis sorted set for one `(user, action)` key modelled as a list of rational
  timestamps; `zremrangebyscore key 0 (now - window)` removes exactly the
  scores in the closed interval `[0, now - window]`, and `zadd` has set
  semantics on the member `str(now)`.
* `PresenceService` in `app/services/presence_service.py`, with the Redis
  online set and the per-user username keys (whose TTL expiry is modelled by
  the key being absent from the store).
* The websocket endpoint handlers in `app/api/websocket.py`
  (`websocket_chat` handshake phase, `handle_send_message`, `handle_typing`),
  with persistence modelled as a function into `Except` (an exception from
  `create_message`/`commit` corresponds to `Except.error`).
-/

namespace LLLChat

abbrev UserId := Nat
abbrev ConnId := Nat

/-- The persisted message row (`app/models/message.py` fields used by the
websocket handler). Timestamps are abstract naturals. -/
structure Message where
  id : Nat
  user_id : Nat
  content : List Char
  created_at : Nat
  updated_at : Nat
  is_deleted : Bool
deriving DecidableEq

/-- Outbound websocket events, as built in `app/api/websocket.py`. -/
inductive Event where
  | new_message (id : Nat) (user_id : Nat) (username : String) (content : List Char)
  | user_joined (user_id : Nat) (username : String)
  | user_left (user_id : Nat) (username : String)
  | user_typing (user_id : Nat) (username : String)
  | pong
  | error (msg : String)
deriving DecidableEq

/-! ## Connection registry (`ConnectionManager`) -/

/-- `ConnectionManager.active_connections`: the `user_id -> WebSocket` dict,
as an association list. -/
abbrev Registry := List (UserId × ConnId)

/-- Dict lookup `active_connections.get(user_id)`. -/
def regLookup (u : UserId) (st : Registry) : Option ConnId :=
  (st.find? (fun p => p.1 == u)).map (fun p => p.2)

/-- Dict deletion `del active_connections[user_id]` (no-op when absent). -/
def regRemove (u : UserId) (st : Registry) : Registry :=
  st.filter (fun p => p.1 != u)

/-- Number of registry entries stored for a given user id. -/
def countKey (u : UserId) (st : Registry) : Nat :=
  st.countP (fun p => p.1 == u)

/-- `ConnectionManager.connect`: under the lock, if the user already has a
connection, close the old one (best effort, errors ignored), then store the
new one via dict assignment.  Returns the new registry and the list of
connections that were closed. -/
def connect (st : Registry) (u : UserId) (c : ConnId) : Registry × List ConnId :=
  match regLookup u st with
  | some old => (regRemove u st ++ [(u, c)], [old])
  | none => (st ++ [(u, c)], [])

/-- `ConnectionManager.disconnect`: delete the entry if present. -/
def disconnect (st : Registry) (u : UserId) : Registry :=
  regRemove u st

/-- `ConnectionManager.send_to_user`: look the connection up; if present,
attempt the send; on transport failure (`ok c = false`, an exception in the
source) disconnect the user and return `false`.  Result: success flag, new
registry, and the list of `(connection, event)` send attempts made. -/
def send_to_user (ok : ConnId → Bool) (st : Registry) (u : UserId) (ev : Event) :
    Bool × Registry × List (ConnId × Event) :=
  match regLookup u st with
  | some c => if ok c then (true, st, [(c, ev)]) else (false, disconnect st u, [(c, ev)])
  | none => (false, st, [])

/-- Result of a broadcast: final registry, user ids to which a send was
attempted, and user ids to which the send succeeded. -/
structure BroadcastResult where
  registry : Registry
  attempted : List UserId
  delivered : List UserId
deriving DecidableEq

/-- The `if exclude and user_id == exclude` test of `broadcast_to_all`
(a `UUID` is always truthy, so the first conjunct is a `None` test). -/
def excludedB (ex : Option UserId) (u : UserId) : Bool :=
  match ex with
  | some e => u == e
  | none => false

/-- The `for user_id, websocket in connections_copy` loop of
`broadcast_to_all`, threading the live registry (a failed send disconnects
that user) while iterating the snapshot. -/
def broadcastLoop (ok : ConnId → Bool) (ex : Option UserId) :
    List (UserId × ConnId) → Registry → BroadcastResult
  | [], st => ⟨st, [], []⟩
  | (u, c) :: rest, st =>
    if excludedB ex u then
      broadcastLoop ok ex rest st
    else if ok c then
      let r := broadcastLoop ok ex rest st
      ⟨r.registry, u :: r.attempted, u :: r.delivered⟩
    else
      let r := broadcastLoop ok ex rest (disconnect st u)
      ⟨r.registry, u :: r.attempted, r.delivered⟩

/-- `ConnectionManager.broadcast_to_all`: take a point-in-time snapshot
(`connections_copy = list(self.active_connections.items())`) and send to each
entry except the excluded user id; a failed recipient is disconnected and the
loop continues. -/
def broadcast_to_all (ok : ConnId → Bool) (st : Registry) (ex : Option UserId) :
    BroadcastResult :=
  broadcastLoop ok ex st st

/-- A sequence of registry operations, for stating the registry invariant. -/
inductive RegOp where
  | register (u : UserId) (c : ConnId)
  | unregister (u : UserId)

/-- Apply a sequence of register/unregister operations, collecting every
connection that `connect` closed along the way. -/
def applyRegOps : List RegOp → Registry → Registry × List ConnId
  | [], st => (st, [])
  | RegOp.register u c :: rest, st =>
    let r := connect st u c
    let rr := applyRegOps rest r.1
    (rr.1, r.2 ++ rr.2)
  | RegOp.unregister u :: rest, st =>
    applyRegOps rest (disconnect st u)

/-! ## Rate limiter (`RateLimiter.check_rate_limit`) -/

/-- `RateLimiter.window_size` (seconds). -/
def window_size : ℚ := 5

/-- `RateLimiter.max_requests`. -/
def max_requests : Nat := 5

/-- `zremrangebyscore key 0 (now - window_size)`: drop every recorded score in
the closed interval `[0, now - window_size]`. -/
def purge (ts : List ℚ) (now : ℚ) : List ℚ :=
  ts.filter (fun t => decide ¬(0 ≤ t ∧ t ≤ now - window_size))

/-- `RateLimiter.check_rate_limit` for one `(user, action)` key: purge the
window, reject without recording when `max_requests` scores remain, otherwise
record `now` (`zadd` with member `str(now)`, hence set semantics) and accept.
Returns the decision and the key's new sorted-set contents. -/
def check_rate_limit (ts : List ℚ) (now : ℚ) : Bool × List ℚ :=
  let kept := purge ts now
  if max_requests ≤ kept.length then (false, kept)
  else (true, kept.insert now)

/-- Run a sequence of `check_rate_limit` calls at the given times, returning
each call's decision. -/
def runChecks : List ℚ → List ℚ → List Bool
  | _, [] => []
  | ts, now :: rest =>
    (check_rate_limit ts now).1 :: runChecks (check_rate_limit ts now).2 rest

/-! ## Presence service (`PresenceService`) -/

/-- Redis state used by `PresenceService`: the `presence:online_users` set and
the `presence:user:<id>` string keys (a key absent from `usernames` models a
missing or TTL-expired username). -/
structure PresenceState where
  online : List String
  usernames : List (String × String)
deriving DecidableEq

/-- Redis `GET` of a `presence:user:<id>` key. -/
def pget (k : String) (kv : List (String × String)) : Option String :=
  (kv.find? (fun p => p.1 == k)).map (fun p => p.2)

/-- Redis `SET` of a `presence:user:<id>` key (overwrite). -/
def pset (kv : List (String × String)) (k v : String) : List (String × String) :=
  kv.filter (fun p => p.1 != k) ++ [(k, v)]

/-- Redis `SADD` on the online set. -/
def sadd (l : List String) (x : String) : List String :=
  if x ∈ l then l else l ++ [x]

/-- `PresenceService.add_user_presence`: add to the online set and store the
username with a TTL. -/
def add_user_presence (st : PresenceState) (uid : Nat) (username : String) :
    PresenceState :=
  ⟨sadd st.online (toString uid), pset st.usernames (toString uid) username⟩

/-- `SREM` on the online set, leaving the username keys untouched. -/
def sremOnline (st : PresenceState) (uid : String) : PresenceState :=
  ⟨st.online.filter (fun x => x != uid), st.usernames⟩

/-- `PresenceService.remove_user_presence`: remove from the online set and
delete the username key. -/
def remove_user_presence (st : PresenceState) (uid : Nat) : PresenceState :=
  ⟨st.online.filter (fun x => x != toString uid),
   st.usernames.filter (fun p => p.1 != toString uid)⟩

/-- The `for user_id_bytes in user_ids` loop of
`PresenceService.get_online_users`: look each member's username up; a member
with a missing username is removed from the online set (`srem`) and skipped. -/
def getOnlineGo : List String → PresenceState → List (String × String) × PresenceState
  | [], st => ([], st)
  | uid :: rest, st =>
    match pget uid st.usernames with
    | some name =>
      let r := getOnlineGo rest st
      ((uid, name) :: r.1, r.2)
    | none => getOnlineGo rest (sremOnline st uid)

/-- `PresenceService.get_online_users`: iterate the `smembers` snapshot of the
online set, returning `(id, username)` pairs and the cleaned-up state. -/
def get_online_users (st : PresenceState) : List (String × String) × PresenceState :=
  getOnlineGo st.online st

/-! ## Websocket endpoint handlers (`app/api/websocket.py`) -/

/-- Python `str.strip()` on the message content. -/
def pyStrip (s : List Char) : List Char :=
  ((s.dropWhile Char.isWhitespace).reverse.dropWhile Char.isWhitespace).reverse

/-- The error text sent for oversized content. -/
def errTooLong : String := "Message exceeds 2000 character limit"

/-- The error text sent on rate limiting. -/
def errRateLimited : String := "Rate limit exceeded. Please slow down."

/-- Which exit `handle_send_message` took. -/
inductive SendResult where
  | droppedEmpty
  | tooLong
  | rateLimited
  | persistFailed
  | broadcasted (m : Message)
deriving DecidableEq

/-- Observable outcome of one `handle_send_message` call: exit taken, final
registry, the `(user, send_message)` rate-limit key contents, the error
events unicast to the sender, the events handed to `broadcast_to_all` with
their `exclude` argument, the users the `new_message` broadcast reached, the
persisted row, whether the db transaction was rolled back, and whether the
rate limiter was consulted at all. -/
structure SendOutcome where
  result : SendResult
  registry : Registry
  rl : List ℚ
  senderEvents : List Event
  broadcasts : List (Event × Option UserId)
  delivered : List UserId
  persisted : Option Message
  rolledBack : Bool
  rlConsulted : Bool
deriving DecidableEq

/-- `handle_send_message`: strip the content; drop silently when empty; for
content over 2000 characters unicast an `error` and stop; otherwise consult
the rate limiter (rejection unicasts an `error` and stops); then persist via
the collaborator `persist` and, on success, broadcast `new_message` to all
connections with no exclusion; a persistence failure rolls back and stops. -/
def handle_send_message (ok : ConnId → Bool) (persist : List Char → Except Unit Message)
    (user : UserId) (username : String) (raw : List Char)
    (reg : Registry) (rl : List ℚ) (now : ℚ) : SendOutcome :=
  let content := pyStrip raw
  if content.length = 0 then
    ⟨SendResult.droppedEmpty, reg, rl, [], [], [], none, false, false⟩
  else if 2000 < content.length then
    let s := send_to_user ok reg user (Event.error errTooLong)
    ⟨SendResult.tooLong, s.2.1, rl, [Event.error errTooLong], [], [], none, false, false⟩
  else
    let c := check_rate_limit rl now
    if c.1 then
      match persist content with
      | Except.ok m =>
        let ev := Event.new_message m.id m.user_id username m.content
        let b := broadcast_to_all ok reg none
        ⟨SendResult.broadcasted m, b.registry, c.2, [], [(ev, none)], b.delivered,
         some m, false, true⟩
      | Except.error _ =>
        ⟨SendResult.persistFailed, reg, c.2, [], [], [], none, true, true⟩
    else
      let s := send_to_user ok reg user (Event.error errRateLimited)
      ⟨SendResult.rateLimited, s.2.1, c.2, [Event.error errRateLimited], [], [], none,
       false, true⟩

/-- `handle_typing`: broadcast `user_typing` to everyone except the sender. -/
def handle_typing (ok : ConnId → Bool) (user : UserId) (reg : Registry) :
    BroadcastResult :=
  broadcast_to_all ok reg (some user)

/-- The authenticated user as `get_user_from_token` returns it. -/
structure PyUser where
  id : Nat
  username : String
  is_active : Bool
deriving DecidableEq

/-- Observable outcome of the `websocket_chat` handshake phase: close code if
the socket was closed during the handshake, whether `accept` ran, final
registry, connections closed by `connect`, final presence state, the events
handed to `broadcast_to_all` with their `exclude` argument, and the users the
`user_joined` broadcast reached. -/
structure ChatSetup where
  closeCode : Option Nat
  accepted : Bool
  registry : Registry
  closed : List ConnId
  presence : PresenceState
  broadcasts : List (Event × Option UserId)
  delivered : List UserId
deriving DecidableEq

/-- The handshake phase of `websocket_chat`: token validation yields
`authUser`; a missing user or an inactive account closes the socket with
code 1008 (`WS_1008_POLICY_VIOLATION`) before any state is touched; otherwise
the socket is accepted, the connection registered, presence added, and
`user_joined` broadcast to everyone but the new user. -/
def websocket_chat_setup (ok : ConnId → Bool) (authUser : Option PyUser)
    (conn : ConnId) (reg : Registry) (pres : PresenceState) : ChatSetup :=
  match authUser with
  | none => ⟨some 1008, false, reg, [], pres, [], []⟩
  | some u =>
    if u.is_active then
      let r := connect reg u.id conn
      let pres2 := add_user_presence pres u.id u.username
      let ev := Event.user_joined u.id u.username
      let b := broadcast_to_all ok r.1 (some u.id)
      ⟨none, true, b.registry, r.2, pres2, [(ev, some u.id)], b.delivered⟩
    else ⟨some 1008, false, reg, [], pres, [], []⟩

/-! ## Registry lemmas -/

lemma find?_append_left_none {α : Type} (p : α → Bool) (l1 l2 : List α)
    (h : ∀ x ∈ l1, p x = false) : (l1 ++ l2).find? p = l2.find? p := by
  induction l1 with
  | nil => rfl
  | cons a t ih =>
    rw [List.cons_append, List.find?_cons_of_neg _ (by simp [h a (List.mem_cons_self a t)])]
    exact ih (fun x hx => h x (List.mem_cons_of_mem a hx))

lemma mem_regRemove {u : UserId} {st : Registry} {p : UserId × ConnId}
    (h : p ∈ regRemove u st) : p ∈ st ∧ p.1 ≠ u := by
  have h2 := List.mem_filter.mp h
  refine ⟨h2.1, ?_⟩
  simpa using h2.2

lemma regLookup_eq_none_iff {u : UserId} {st : Registry} :
    regLookup u st = none ↔ ∀ p ∈ st, p.1 ≠ u := by
  unfold regLookup
  rw [Option.map_eq_none', List.find?_eq_none]
  simp

lemma regLookup_connect_self (st : Registry) (u : UserId) (c : ConnId) :
    regLookup u (connect st u c).1 = some c := by
  unfold connect
  cases hl : regLookup u st with
  | some old =>
    show regLookup u (regRemove u st ++ [(u, c)]) = some c
    unfold regLookup
    rw [find?_append_left_none _ _ _ (fun p hp => by simp [(mem_regRemove hp).2])]
    simp [List.find?]
  | none =>
    show regLookup u (st ++ [(u, c)]) = some c
    unfold regLookup
    rw [find?_append_left_none _ _ _ (fun p hp => by
      simp [(regLookup_eq_none_iff.mp hl) p hp])]
    simp [List.find?]

lemma countKey_regRemove_self (u : UserId) (st : Registry) :
    countKey u (regRemove u st) = 0 := by
  unfold countKey
  rw [List.countP_eq_zero]
  intro p hp
  simp [(mem_regRemove hp).2]

lemma countKey_regRemove_le (u v : UserId) (st : Registry) :
    countKey v (regRemove u st) ≤ countKey v st :=
  List.Sublist.countP_le _ (List.filter_sublist st)

lemma countKey_eq_zero_of_none {u : UserId} {st : Registry}
    (h : regLookup u st = none) : countKey u st = 0 := by
  unfold countKey
  rw [List.countP_eq_zero]
  intro p hp
  simp [(regLookup_eq_none_iff.mp h) p hp]

lemma countKey_connect (st : Registry) (u : UserId) (c : ConnId) (v : UserId)
    (hinv : countKey v st ≤ 1) : countKey v (connect st u c).1 ≤ 1 := by
  unfold connect
  cases hl : regLookup u st with
  | some old =>
    show countKey v (regRemove u st ++ [(u, c)]) ≤ 1
    unfold countKey
    rw [List.countP_append]
    by_cases hv : v = u
    · subst hv
      have h0 := countKey_regRemove_self v st
      unfold countKey at h0
      rw [h0]
      simp
    · have h0 : List.countP (fun p => p.1 == v) [(u, c)] = 0 := by
        simp [Ne.symm hv]
      rw [h0]
      have := countKey_regRemove_le u v st
      unfold countKey at this hinv
      omega
  | none =>
    show countKey v (st ++ [(u, c)]) ≤ 1
    unfold countKey
    rw [List.countP_append]
    by_cases hv : v = u
    · subst hv
      have h0 := countKey_eq_zero_of_none hl
      unfold countKey at h0
      rw [h0]
      simp
    · have h0 : List.countP (fun p => p.1 == v) [(u, c)] = 0 := by
        simp [Ne.symm hv]
      rw [h0]
      unfold countKey at hinv
      omega

lemma applyRegOps_countKey (ops : List RegOp) :
    ∀ st : Registry, (∀ w, countKey w st ≤ 1) →
      ∀ w, countKey w (applyRegOps ops st).1 ≤ 1 := by
  induction ops with
  | nil => intro st h w; exact h w
  | cons op rest ih =>
    intro st h w
    cases op with
    | register u c =>
      simp only [applyRegOps]
      exact ih _ (fun v => countKey_connect st u c v (h v)) w
    | unregister u =>
      simp only [applyRegOps]
      exact ih _ (fun v => le_trans (countKey_regRemove_le u v st) (h v)) w

/-! ## Broadcast lemmas -/

lemma broadcastLoop_attempted (ok : ConnId → Bool) (ex : Option UserId)
    (l : List (UserId × ConnId)) :
    ∀ st : Registry, (broadcastLoop ok ex l st).attempted
      = (l.map Prod.fst).filter (fun v => !excludedB ex v) := by
  induction l with
  | nil => intro st; rfl
  | cons p rest ih =>
    intro st
    obtain ⟨u, c⟩ := p
    by_cases hex : excludedB ex u = true
    · simp [broadcastLoop, hex, ih]
    · by_cases hok : ok c = true
      · simp [broadcastLoop, hex, hok, ih]
      · simp [broadcastLoop, hex, hok, ih]

lemma broadcastLoop_registry_mem (ok : ConnId → Bool) (ex : Option UserId)
    (l : List (UserId × ConnId)) :
    ∀ (st : Registry) (p : UserId × ConnId),
      p ∈ (broadcastLoop ok ex l st).registry → p ∈ st := by
  induction l with
  | nil => intro st p hp; exact hp
  | cons q rest ih =>
    intro st p hp
    obtain ⟨u, c⟩ := q
    by_cases hex : excludedB ex u = true
    · simp only [broadcastLoop, hex, if_true] at hp
      exact ih st p hp
    · by_cases hok : ok c = true
      · simp only [broadcastLoop, hex, hok, if_true, if_false, Bool.false_eq_true] at hp
        exact ih st p hp
      · simp only [broadcastLoop, hex, hok, if_true, if_false, Bool.false_eq_true] at hp
        exact (mem_regRemove (ih _ p hp)).1

lemma broadcastLoop_lookup_none (ok : ConnId → Bool) (ex : Option UserId)
    (l : List (UserId × ConnId)) (u : UserId) (st : Registry)
    (h : regLookup u st = none) :
    regLookup u (broadcastLoop ok ex l st).registry = none := by
  rw [regLookup_eq_none_iff] at h ⊢
  intro p hp
  exact h p (broadcastLoop_registry_mem ok ex l st p hp)

lemma regLookup_disconnect_self (st : Registry) (u : UserId) :
    regLookup u (disconnect st u) = none := by
  rw [regLookup_eq_none_iff]
  intro p hp
  exact (mem_regRemove hp).2

lemma broadcastLoop_fail_lookup_none (ok : ConnId → Bool) (ex : Option UserId)
    (u : UserId) (c : ConnId) (l : List (UserId × ConnId)) :
    ∀ st : Registry, (u, c) ∈ l → excludedB ex u = false → ok c = false →
      regLookup u (broadcastLoop ok ex l st).registry = none := by
  induction l with
  | nil => intro st h; exact absurd h (List.not_mem_nil _)
  | cons q rest ih =>
    intro st hmem hex hok
    obtain ⟨u2, c2⟩ := q
    rcases List.mem_cons.mp hmem with heq | htail
    · cases heq
      simp only [broadcastLoop, hex, hok, if_false, Bool.false_eq_true]
      exact broadcastLoop_lookup_none ok ex rest u _ (regLookup_disconnect_self st u)
    · by_cases hex2 : excludedB ex u2 = true
      · simp only [broadcastLoop, hex2, if_true]
        exact ih st htail hex hok
      · by_cases hok2 : ok c2 = true
        · simp only [broadcastLoop, hex2, hok2, if_true, if_false, Bool.false_eq_true]
          exact ih st htail hex hok
        · simp only [broadcastLoop, hex2, hok2, if_true, if_false, Bool.false_eq_true]
          exact ih _ htail hex hok

lemma broadcastLoop_mem_delivered (ok : ConnId → Bool) (ex : Option UserId)
    (u : UserId) (c : ConnId) (l : List (UserId × ConnId)) :
    ∀ st : Registry, (u, c) ∈ l → ok c = true → excludedB ex u = false →
      u ∈ (broadcastLoop ok ex l st).delivered := by
  induction l with
  | nil => intro st h; exact absurd h (List.not_mem_nil _)
  | cons q rest ih =>
    intro st hmem hok hex
    obtain ⟨u2, c2⟩ := q
    rcases List.mem_cons.mp hmem with heq | htail
    · cases heq
      simp only [broadcastLoop, hex, hok, if_true, if_false, Bool.false_eq_true]
      exact List.mem_cons_self u _
    · by_cases hex2 : excludedB ex u2 = true
      · simp only [broadcastLoop, hex2, if_true]
        exact ih st htail hok hex
      · by_cases hok2 : ok c2 = true
        · simp only [broadcastLoop, hex2, hok2, if_true, if_false, Bool.false_eq_true]
          exact List.mem_cons_of_mem u2 (ih st htail hok hex)
        · simp only [broadcastLoop, hex2, hok2, if_true, if_false, Bool.false_eq_true]
          exact ih _ htail hok hex

lemma not_mem_attempted_excluded (ok : ConnId → Bool) (U : UserId)
    (l : List (UserId × ConnId)) (st : Registry) :
    U ∉ (broadcastLoop ok (some U) l st).attempted := by
  rw [broadcastLoop_attempted]
  intro h
  have h2 := (List.mem_filter.mp h).2
  simp [excludedB] at h2

/-! ## Rate limiter lemmas -/

lemma purge_eq_self {ts : List ℚ} {now : ℚ}
    (h : ∀ t ∈ ts, now - window_size < t) : purge ts now = ts := by
  unfold purge
  rw [List.filter_eq_self]
  intro t ht
  rw [decide_eq_true_eq]
  intro hc
  exact absurd hc.2 (not_le.mpr (h t ht))

lemma purge_eq_nil {ts : List ℚ} {now : ℚ}
    (h : ∀ t ∈ ts, 0 ≤ t ∧ t ≤ now - window_size) : purge ts now = [] := by
  unfold purge
  rw [List.filter_eq_nil_iff]
  intro t ht
  simp [h t ht]

lemma check_reject {ts : List ℚ} {now : ℚ}
    (h : max_requests ≤ (purge ts now).length) :
    check_rate_limit ts now = (false, purge ts now) := by
  unfold check_rate_limit
  simp [h]

lemma check_accept {ts : List ℚ} {now : ℚ}
    (h : (purge ts now).length < max_requests) :
    check_rate_limit ts now = (true, (purge ts now).insert now) := by
  unfold check_rate_limit
  simp [Nat.not_le.mpr h]

/-! ## Presence lemmas -/

lemma getOnlineGo_usernames (l : List String) :
    ∀ st : PresenceState, (getOnlineGo l st).2.usernames = st.usernames := by
  induction l with
  | nil => intro st; rfl
  | cons uid rest ih =>
    intro st
    cases hg : pget uid st.usernames with
    | some name => simp only [getOnlineGo, hg]; exact ih st
    | none =>
      simp only [getOnlineGo, hg]
      exact ih (sremOnline st uid)

lemma getOnlineGo_entries (l : List String) :
    ∀ st : PresenceState, ∀ e ∈ (getOnlineGo l st).1,
      pget e.1 st.usernames = some e.2 := by
  induction l with
  | nil => intro st e he; exact absurd he (List.not_mem_nil e)
  | cons uid rest ih =>
    intro st e he
    cases hg : pget uid st.usernames with
    | some name =>
      simp only [getOnlineGo, hg] at he
      rcases List.mem_cons.mp he with heq | htail
      · subst heq
        exact hg
      · exact ih st e htail
    | none =>
      simp only [getOnlineGo, hg] at he
      exact ih (sremOnline st uid) e he

lemma getOnlineGo_online_mem (l : List String) :
    ∀ (st : PresenceState) (x : String),
      x ∈ (getOnlineGo l st).2.online → x ∈ st.online := by
  induction l with
  | nil => intro st x h; exact h
  | cons uid rest ih =>
    intro st x h
    cases hg : pget uid st.usernames with
    | some name =>
      simp only [getOnlineGo, hg] at h
      exact ih st x h
    | none =>
      simp only [getOnlineGo, hg] at h
      exact List.mem_of_mem_filter (ih _ x h)

lemma getOnlineGo_stale_removed (l : List String) (uid : String) :
    ∀ st : PresenceState, uid ∈ l → pget uid st.usernames = none →
      uid ∉ (getOnlineGo l st).2.online := by
  induction l with
  | nil => intro st h; exact absurd h (List.not_mem_nil uid)
  | cons v rest ih =>
    intro st hmem hnone
    rcases List.mem_cons.mp hmem with heq | htail
    · subst heq
      simp only [getOnlineGo, hnone]
      intro hin
      have h2 := List.mem_filter.mp (getOnlineGo_online_mem rest (sremOnline st uid) uid hin)
      simp at h2
    · cases hg : pget v st.usernames with
      | some name =>
        simp only [getOnlineGo, hg]
        exact ih st htail hnone
      | none =>
        simp only [getOnlineGo, hg]
        exact ih (sremOnline st v) htail hnone

/-! ## Content stripping lemmas -/

lemma dropWhile_eq_self_of_forall {p : Char → Bool} {l : List Char}
    (h : ∀ c ∈ l, p c = false) : l.dropWhile p = l := by
  cases l with
  | nil => rfl
  | cons a t =>
    rw [List.dropWhile_cons]
    simp [h a (List.mem_cons_self a t)]

lemma pyStrip_eq_self {l : List Char}
    (h : ∀ c ∈ l, c.isWhitespace = false) : pyStrip l = l := by
  unfold pyStrip
  rw [dropWhile_eq_self_of_forall h,
    dropWhile_eq_self_of_forall (fun c hc => h c (List.mem_reverse.mp hc)),
    List.reverse_reverse]

/-! ## Claim theorems -/

/-- Claim C1: the Connection Registry keeps at most one entry per user-id
after any sequence of register/unregister operations, and registering a
connection for a user-id that already has an entry first closes the prior
connection and then stores the new one, so the last register wins. -/
theorem registry_single_entry_last_writer_wins (ops : List RegOp) (u : UserId) :
    countKey u (applyRegOps ops []).1 ≤ 1
    ∧ ∀ (st : Registry) (c old : ConnId), regLookup u st = some old →
        (connect st u c).2 = [old] ∧ regLookup u (connect st u c).1 = some c := by
  constructor
  · exact applyRegOps_countKey ops [] (fun w => by simp [countKey]) u
  · intro st c old h
    refine ⟨?_, regLookup_connect_self st u c⟩
    unfold connect
    rw [h]

theorem registry_single_entry_lww_witness :
    countKey 1 (applyRegOps [RegOp.register 1 10, RegOp.register 1 11] []).1 ≤ 1
    ∧ (connect [(1, 10)] 1 11).2 = [10]
    ∧ regLookup 1 (connect [(1, 10)] 1 11).1 = some 11 := by
  obtain ⟨h1, h2⟩ := registry_single_entry_last_writer_wins
    [RegOp.register 1 10, RegOp.register 1 11] 1
  obtain ⟨h3, h4⟩ := h2 [(1, 10)] 11 10 (by decide)
  exact ⟨h1, h3, h4⟩

/-- Claim C3: `broadcast_to_all` with an excluded user attempts delivery to
every user-id in the point-in-time snapshot except the excluded one, and a
delivery failure for one recipient unregisters that recipient without
preventing delivery to the other recipients of the snapshot. -/
theorem broadcast_excludes_and_survives_failures (ok : ConnId → Bool)
    (st : Registry) (U : UserId) :
    (broadcast_to_all ok st (some U)).attempted
      = (st.map Prod.fst).filter (fun v => !(v == U))
    ∧ (∀ u c, (u, c) ∈ st → u ≠ U → ok c = false →
        regLookup u (broadcast_to_all ok st (some U)).registry = none)
    ∧ ∀ u c, (u, c) ∈ st → u ≠ U → ok c = true →
        u ∈ (broadcast_to_all ok st (some U)).delivered := by
  refine ⟨?_, ?_, ?_⟩
  · rw [broadcast_to_all, broadcastLoop_attempted]
    rfl
  · intro u c hmem hne hok
    exact broadcastLoop_fail_lookup_none ok (some U) u c st st hmem
      (by simp [excludedB, hne]) hok
  · intro u c hmem hne hok
    exact broadcastLoop_mem_delivered ok (some U) u c st st hmem hok
      (by simp [excludedB, hne])

theorem broadcast_excludes_witness :
    (broadcast_to_all (fun c => c != 20) [(1, 10), (2, 20), (3, 30)]
      (some 3)).attempted = [1, 2]
    ∧ regLookup 2 (broadcast_to_all (fun c => c != 20) [(1, 10), (2, 20), (3, 30)]
        (some 3)).registry = none
    ∧ 1 ∈ (broadcast_to_all (fun c => c != 20) [(1, 10), (2, 20), (3, 30)]
        (some 3)).delivered := by
  obtain ⟨h1, h2, h3⟩ := broadcast_excludes_and_survives_failures (fun c => c != 20)
    [(1, 10), (2, 20), (3, 30)] 3
  refine ⟨?_, h2 2 20 (by decide) (by decide) (by decide),
    h3 1 10 (by decide) (by decide) (by decide)⟩
  rw [h1]
  rfl

/-- Claim C5: when the handshake token yields no user, or the user is
inactive, `websocket_chat` closes the socket with policy-violation code 1008
and creates no partial state: the registry and presence are untouched and
nothing is broadcast. -/
theorem auth_failure_creates_no_state (ok : ConnId → Bool) (conn : ConnId)
    (reg : Registry) (pres : PresenceState) (authUser : Option PyUser)
    (h : ∀ u, authUser = some u → u.is_active = false) :
    websocket_chat_setup ok authUser conn reg pres
      = ⟨some 1008, false, reg, [], pres, [], []⟩ := by
  cases authUser with
  | none => rfl
  | some u => simp [websocket_chat_setup, h u rfl]

theorem auth_failure_witness :
    websocket_chat_setup (fun _ => true)
        (some ⟨7, "mallory", false⟩) 5 [(1, 10)] ⟨["1"], [("1", "alice")]⟩
      = ⟨some 1008, false, [(1, 10)], [], ⟨["1"], [("1", "alice")]⟩, [], []⟩ :=
  auth_failure_creates_no_state (fun _ => true) 5 [(1, 10)]
    ⟨["1"], [("1", "alice")]⟩ (some ⟨7, "mallory", false⟩)
    (fun u hu => by cases hu; rfl)

/-- Claim C6: `get_online_users` never returns a member whose stored username
is missing: every returned entry carries the username present in the store,
and a member whose username lookup fails is removed from the online set and
excluded from the returned list. -/
theorem list_online_excludes_stale (st : PresenceState) :
    (∀ e ∈ (get_online_users st).1, pget e.1 st.usernames = some e.2)
    ∧ ∀ uid ∈ st.online, pget uid st.usernames = none →
        uid ∉ (get_online_users st).1.map Prod.fst
        ∧ uid ∉ (get_online_users st).2.online := by
  refine ⟨getOnlineGo_entries st.online st, ?_⟩
  intro uid hmem hnone
  constructor
  · intro hin
    obtain ⟨e, he, heq⟩ := List.mem_map.mp hin
    have h2 := getOnlineGo_entries st.online st e he
    rw [heq, hnone] at h2
    exact Option.noConfusion h2
  · exact getOnlineGo_stale_removed st.online uid st hmem hnone

theorem list_online_excludes_stale_witness :
    "2" ∉ ((get_online_users ⟨["1", "2"], [("1", "alice")]⟩).1.map Prod.fst)
    ∧ "2" ∉ (get_online_users ⟨["1", "2"], [("1", "alice")]⟩).2.online :=
  (list_online_excludes_stale ⟨["1", "2"], [("1", "alice")]⟩).2 "2"
    (by decide) (by decide)

/-- Claim C10: `send_to_user` for a user-id with no registered connection
returns `false`, makes no delivery attempt, and leaves the registry
unchanged. -/
theorem send_to_missing_user_no_attempt (ok : ConnId → Bool) (st : Registry)
    (u : UserId) (ev : Event) (h : regLookup u st = none) :
    send_to_user ok st u ev = (false, st, []) := by
  simp [send_to_user, h]

theorem send_to_missing_user_witness :
    send_to_user (fun _ => true) [(2, 20)] 1 Event.pong = (false, [(2, 20)], []) :=
  send_to_missing_user_no_attempt (fun _ => true) [(2, 20)] 1 Event.pong (by decide)

/-- Claim C2: `check_rate_limit` purges timestamps that have left the
5-second window, rejects without recording when 5 remain, records and accepts
otherwise; hence 5 calls within a 5-second sliding window succeed, the 6th
fails, a rejected call adds nothing to the window, and a call made at least
5 seconds after every recorded timestamp succeeds. -/
theorem rate_limit_sliding_window (ts : List ℚ) (now t1 t2 t3 t4 t5 t6 : ℚ) :
    (max_requests ≤ (purge ts now).length →
      check_rate_limit ts now = (false, purge ts now))
    ∧ ((purge ts now).length < max_requests →
        check_rate_limit ts now = (true, (purge ts now).insert now))
    ∧ (0 ≤ t1 ∧ t1 < t2 ∧ t2 < t3 ∧ t3 < t4 ∧ t4 < t5 ∧ t5 < t6 ∧
        t6 < t1 + window_size →
        runChecks [] [t1, t2, t3, t4, t5, t6] = [true, true, true, true, true, false])
    ∧ ((∀ t ∈ ts, 0 ≤ t ∧ t ≤ now - window_size) →
        (check_rate_limit ts now).1 = true) := by
  have hw : window_size = (5 : ℚ) := rfl
  refine ⟨fun h => check_reject h, fun h => check_accept h, ?_, ?_⟩
  · rintro ⟨h1, h12, h23, h34, h45, h56, hW⟩
    rw [hw] at hW
    have c1 : check_rate_limit [] t1 = (true, [t1]) := by
      rw [check_accept (by
        rw [show purge [] t1 = [] from rfl]
        norm_num [max_requests])]
      rw [show purge [] t1 = [] from rfl,
        List.insert_of_not_mem (List.not_mem_nil t1)]
    have hp2 : purge [t1] t2 = [t1] := purge_eq_self (by
      intro t ht
      rw [hw]
      simp only [List.mem_singleton] at ht
      subst ht
      linarith)
    have c2 : check_rate_limit [t1] t2 = (true, [t2, t1]) := by
      rw [check_accept (by rw [hp2]; norm_num [max_requests])]
      rw [hp2, List.insert_of_not_mem (by
        simp only [List.mem_singleton]
        exact ne_of_gt h12)]
    have hp3 : purge [t2, t1] t3 = [t2, t1] := purge_eq_self (by
      intro t ht
      rw [hw]
      simp only [List.mem_cons, List.mem_singleton, List.not_mem_nil, or_false] at ht
      rcases ht with rfl | rfl <;> linarith)
    have c3 : check_rate_limit [t2, t1] t3 = (true, [t3, t2, t1]) := by
      rw [check_accept (by rw [hp3]; norm_num [max_requests])]
      rw [hp3, List.insert_of_not_mem (by
        simp only [List.mem_cons, List.mem_singleton, List.not_mem_nil, or_false]
        push_neg
        exact ⟨ne_of_gt h23, ne_of_gt (lt_trans h12 h23)⟩)]
    have hp4 : purge [t3, t2, t1] t4 = [t3, t2, t1] := purge_eq_self (by
      intro t ht
      rw [hw]
      simp only [List.mem_cons, List.mem_singleton, List.not_mem_nil, or_false] at ht
      rcases ht with rfl | rfl | rfl <;> linarith)
    have c4 : check_rate_limit [t3, t2, t1] t4 = (true, [t4, t3, t2, t1]) := by
      rw [check_accept (by rw [hp4]; norm_num [max_requests])]
      rw [hp4, List.insert_of_not_mem (by
        simp only [List.mem_cons, List.mem_singleton, List.not_mem_nil, or_false]
        push_neg
        refine ⟨ne_of_gt h34, ne_of_gt (lt_trans h23 h34), ?_⟩
        exact ne_of_gt (lt_trans h12 (lt_trans h23 h34)))]
    have hp5 : purge [t4, t3, t2, t1] t5 = [t4, t3, t2, t1] := purge_eq_self (by
      intro t ht
      rw [hw]
      simp only [List.mem_cons, List.mem_singleton, List.not_mem_nil, or_false] at ht
      rcases ht with rfl | rfl | rfl | rfl <;> linarith)
    have c5 : check_rate_limit [t4, t3, t2, t1] t5 = (true, [t5, t4, t3, t2, t1]) := by
      rw [check_accept (by rw [hp5]; norm_num [max_requests])]
      rw [hp5, List.insert_of_not_mem (by
        simp only [List.mem_cons, List.mem_singleton, List.not_mem_nil, or_false]
        push_neg
        refine ⟨ne_of_gt h45, ne_of_gt (lt_trans h34 h45), ?_, ?_⟩
        · exact ne_of_gt (lt_trans h23 (lt_trans h34 h45))
        · exact ne_of_gt (lt_trans h12 (lt_trans h23 (lt_trans h34 h45))))]
    have hp6 : purge [t5, t4, t3, t2, t1] t6 = [t5, t4, t3, t2, t1] :=
      purge_eq_self (by
        intro t ht
        rw [hw]
        simp only [List.mem_cons, List.mem_singleton, List.not_mem_nil, or_false] at ht
        rcases ht with rfl | rfl | rfl | rfl | rfl <;> linarith)
    have c6 : check_rate_limit [t5, t4, t3, t2, t1] t6 = (false, [t5, t4, t3, t2, t1]) := by
      rw [check_reject (by rw [hp6]; norm_num [max_requests])]
      rw [hp6]
    simp only [runChecks, c1, c2, c3, c4, c5, c6]
  · intro h
    rw [check_accept (by rw [purge_eq_nil h]; norm_num [max_requests])]

theorem rate_limit_sliding_window_witness :
    check_rate_limit [0, 0, 0, 0, 0] (1 : ℚ) = (false, [0, 0, 0, 0, 0])
    ∧ check_rate_limit [] (0 : ℚ) = (true, [0])
    ∧ runChecks [] [(0 : ℚ), 1, 2, 3, 4, 9 / 2]
        = [true, true, true, true, true, false]
    ∧ (check_rate_limit [(0 : ℚ)] 5).1 = true := by
  refine ⟨?_, ?_, ?_, ?_⟩
  · have hp : purge [0, 0, 0, 0, 0] (1 : ℚ) = [0, 0, 0, 0, 0] := purge_eq_self (by
      intro t ht
      simp only [List.mem_cons, List.mem_singleton, List.not_mem_nil, or_false] at ht
      rcases ht with rfl | rfl | rfl | rfl | rfl <;> norm_num [window_size])
    have h := (rate_limit_sliding_window [0, 0, 0, 0, 0] 1 0 0 0 0 0 0).1
      (by rw [hp]; norm_num [max_requests])
    rw [h, hp]
  · have h := (rate_limit_sliding_window [] 0 0 0 0 0 0 0).2.1 (by decide)
    rw [h]
    decide
  · exact (rate_limit_sliding_window [] 0 0 1 2 3 4 (9 / 2)).2.2.1
      (by norm_num [window_size])
  · exact (rate_limit_sliding_window [(0 : ℚ)] 5 0 0 0 0 0 0).2.2.2
      (by intro t ht; simp only [List.mem_singleton] at ht; subst ht; norm_num [window_size])

/-- Claim C4: `handle_send_message` trims the content first; empty trimmed
content is silently dropped with no error, no persistence and no broadcast;
trimmed content of exactly 2000 characters passes validation, while longer
content yields an `error` event unicast to the sender and is neither
persisted nor broadcast. -/
theorem send_message_content_validation (ok : ConnId → Bool)
    (persist : List Char → Except Unit Message) (user : UserId) (username : String)
    (raw : List Char) (reg : Registry) (rl : List ℚ) (now : ℚ) :
    ((pyStrip raw).length = 0 →
      handle_send_message ok persist user username raw reg rl now
        = ⟨SendResult.droppedEmpty, reg, rl, [], [], [], none, false, false⟩)
    ∧ ((pyStrip raw).length = 2000 →
        (handle_send_message ok persist user username raw reg rl now).result
            ≠ SendResult.droppedEmpty
        ∧ (handle_send_message ok persist user username raw reg rl now).result
            ≠ SendResult.tooLong
        ∧ (handle_send_message ok persist user username raw reg rl now).rlConsulted
            = true)
    ∧ (2000 < (pyStrip raw).length →
        (handle_send_message ok persist user username raw reg rl now).result
            = SendResult.tooLong
        ∧ (handle_send_message ok persist user username raw reg rl now).senderEvents
            = [Event.error errTooLong]
        ∧ (handle_send_message ok persist user username raw reg rl now).persisted = none
        ∧ (handle_send_message ok persist user username raw reg rl now).broadcasts = []
        ∧ (handle_send_message ok persist user username raw reg rl now).rl = rl) := by
  refine ⟨?_, ?_, ?_⟩
  · intro h
    simp [handle_send_message, h]
  · intro h
    have h0 : ¬((pyStrip raw).length = 0) := by omega
    have h2 : ¬(2000 < (pyStrip raw).length) := by omega
    simp only [handle_send_message]
    rw [if_neg h0, if_neg h2]
    cases hb : (check_rate_limit rl now).1 with
    | true =>
      rw [if_pos rfl]
      cases hp : persist (pyStrip raw) with
      | ok m =>
        exact ⟨fun hcon => SendResult.noConfusion hcon,
          fun hcon => SendResult.noConfusion hcon, rfl⟩
      | error e =>
        exact ⟨fun hcon => SendResult.noConfusion hcon,
          fun hcon => SendResult.noConfusion hcon, rfl⟩
    | false =>
      rw [if_neg Bool.false_ne_true]
      exact ⟨fun hcon => SendResult.noConfusion hcon,
        fun hcon => SendResult.noConfusion hcon, rfl⟩
  · intro h
    have h0 : ¬((pyStrip raw).length = 0) := by omega
    simp only [handle_send_message]
    rw [if_neg h0, if_pos h]
    exact ⟨rfl, rfl, rfl, rfl, rfl⟩

theorem send_message_content_validation_witness :
    handle_send_message (fun _ => true) (fun c => Except.ok ⟨1, 1, c, 0, 0, false⟩)
        1 "alice" [' '] [] [] 0
      = ⟨SendResult.droppedEmpty, [], [], [], [], [], none, false, false⟩
    ∧ (handle_send_message (fun _ => true) (fun c => Except.ok ⟨1, 1, c, 0, 0, false⟩)
        1 "alice" (List.replicate 2000 'a') [] [] 0).result ≠ SendResult.tooLong
    ∧ (handle_send_message (fun _ => true) (fun c => Except.ok ⟨1, 1, c, 0, 0, false⟩)
        1 "alice" (List.replicate 2001 'a') [] [] 0).result = SendResult.tooLong := by
  have ha : ∀ n : Nat, pyStrip (List.replicate n 'a') = List.replicate n 'a' := fun n =>
    pyStrip_eq_self (fun c hc => by rw [List.eq_of_mem_replicate hc]; decide)
  refine ⟨?_, ?_, ?_⟩
  · exact (send_message_content_validation _ _ 1 "alice" [' '] [] [] 0).1 (by decide)
  · exact ((send_message_content_validation _ _ 1 "alice" (List.replicate 2000 'a')
      [] [] 0).2.1 (by rw [ha, List.length_replicate])).2.1
  · exact ((send_message_content_validation _ _ 1 "alice" (List.replicate 2001 'a')
      [] [] 0).2.2 (by rw [ha, List.length_replicate]; norm_num)).1

/-- Claim C7: a typing event from a user is broadcast with that user excluded,
so the sender is never among the attempted recipients, whereas an accepted
send_message is broadcast with no exclusion, so a sender with a live
registered connection receives their own `new_message` event. -/
theorem typing_excludes_sender_new_message_reaches_sender (ok : ConnId → Bool)
    (persist : List Char → Except Unit Message) (user : UserId) (username : String)
    (raw : List Char) (reg : Registry) (rl : List ℚ) (now : ℚ) (c : ConnId)
    (m : Message) :
    user ∉ (handle_typing ok user reg).attempted
    ∧ ((pyStrip raw).length ≠ 0 → (pyStrip raw).length ≤ 2000 →
        (check_rate_limit rl now).1 = true → persist (pyStrip raw) = Except.ok m →
        (user, c) ∈ reg → ok c = true →
        (handle_send_message ok persist user username raw reg rl now).broadcasts
            = [(Event.new_message m.id m.user_id username m.content, none)]
        ∧ user ∈ (handle_send_message ok persist user username raw reg rl now).delivered) := by
  constructor
  · exact not_mem_attempted_excluded ok user reg reg
  · intro h0 h2 hrl hper hmem hok
    have h2b : ¬(2000 < (pyStrip raw).length) := not_lt.mpr h2
    simp only [handle_send_message]
    rw [if_neg h0, if_neg h2b]
    rw [hrl, if_pos rfl, hper]
    exact ⟨rfl, broadcastLoop_mem_delivered ok none user c reg reg hmem hok rfl⟩

theorem typing_new_message_witness :
    1 ∉ (handle_typing (fun _ => true) 1 [(1, 10), (2, 20)]).attempted
    ∧ 1 ∈ (handle_send_message (fun _ => true)
        (fun c => Except.ok ⟨5, 1, c, 0, 0, false⟩) 1 "alice" ['h', 'i']
        [(1, 10), (2, 20)] [] 0).delivered := by
  obtain ⟨h1, h2⟩ := typing_excludes_sender_new_message_reaches_sender (fun _ => true)
    (fun c => Except.ok ⟨5, 1, c, 0, 0, false⟩) 1 "alice" ['h', 'i']
    [(1, 10), (2, 20)] [] 0 10 ⟨5, 1, ['h', 'i'], 0, 0, false⟩
  exact ⟨h1, (h2 (by decide) (by decide) (by decide)
    (by rw [show pyStrip ['h', 'i'] = ['h', 'i'] from by decide]) (by decide) rfl).2⟩

/-- Claim C8: if persistence fails during `handle_send_message`, the message
is dropped: the transaction is rolled back, no `new_message` is broadcast to
anyone, and the sender receives no error or other notification. -/
theorem persist_failure_no_broadcast_no_notice (ok : ConnId → Bool)
    (persist : List Char → Except Unit Message) (user : UserId) (username : String)
    (raw : List Char) (reg : Registry) (rl : List ℚ) (now : ℚ)
    (h0 : (pyStrip raw).length ≠ 0) (h2 : (pyStrip raw).length ≤ 2000)
    (hrl : (check_rate_limit rl now).1 = true)
    (hper : persist (pyStrip raw) = Except.error ()) :
    handle_send_message ok persist user username raw reg rl now
      = ⟨SendResult.persistFailed, reg, (check_rate_limit rl now).2, [], [], [], none,
         true, true⟩ := by
  have h2b : ¬(2000 < (pyStrip raw).length) := not_lt.mpr h2
  simp only [handle_send_message]
  rw [if_neg h0, if_neg h2b]
  simp [hrl, hper]

theorem persist_failure_witness :
    handle_send_message (fun _ => true) (fun _ => Except.error ()) 1 "alice"
        ['h', 'i'] [] [] 0
      = ⟨SendResult.persistFailed, [], (check_rate_limit [] 0).2, [], [], [], none,
         true, true⟩ :=
  persist_failure_no_broadcast_no_notice (fun _ => true) (fun _ => Except.error ())
    1 "alice" ['h', 'i'] [] [] 0 (by decide) (by decide) (by decide) rfl

/-- Claim C9: a send_message whose trimmed content is empty or longer than
2000 characters never consults the rate limiter, so the `(user, send_message)`
rate window is left unchanged. -/
theorem invalid_content_leaves_rate_window (ok : ConnId → Bool)
    (persist : List Char → Except Unit Message) (user : UserId) (username : String)
    (raw : List Char) (reg : Registry) (rl : List ℚ) (now : ℚ)
    (h : (pyStrip raw).length = 0 ∨ 2000 < (pyStrip raw).length) :
    (handle_send_message ok persist user username raw reg rl now).rl = rl
    ∧ (handle_send_message ok persist user username raw reg rl now).rlConsulted
        = false := by
  rcases h with h | h
  · simp [handle_send_message, h]
  · have h0 : ¬((pyStrip raw).length = 0) := by omega
    simp only [handle_send_message]
    rw [if_neg h0, if_pos h]
    exact ⟨rfl, rfl⟩

theorem invalid_content_witness :
    (handle_send_message (fun _ => true) (fun c => Except.ok ⟨1, 1, c, 0, 0, false⟩)
        1 "alice" [' '] [] [(0 : ℚ)] 0).rl = [(0 : ℚ)]
    ∧ (handle_send_message (fun _ => true) (fun c => Except.ok ⟨1, 1, c, 0, 0, false⟩)
        1 "alice" [' '] [] [(0 : ℚ)] 0).rlConsulted = false :=
  invalid_content_leaves_rate_window (fun _ => true)
    (fun c => Except.ok ⟨1, 1, c, 0, 0, false⟩) 1 "alice" [' '] [] [(0 : ℚ)] 0
    (Or.inl (by decide))

end LLLChat
